import Mathlib

/-!
Verification of the Promlite metrics library (Counter, Gauge, Histogram,
Registry and their Prometheus text rendering) against its specification.

Embedding conventions:
* JavaScript `Map` objects are modelled as insertion-ordered association
  lists (`List (κ × β)`): `jset` replaces the value of the first matching
  key in place (keeping its position, as JS `Map.set` does) or appends a
  fresh entry at the end; `jget` reads the first matching entry; `jdelete`
  removes it and reports whether it was present.
* The per-metric value maps are keyed by `JSON.stringify(labelValues)` in
  the source.  `JSON.stringify` is injective on lists of strings and
  `JSON.parse` recovers the list, so the key is modelled directly as the
  `List String` of label values.
* JavaScript numbers are modelled as exact rationals (`ℚ`).  Every
  rational is a finite number, so the source's NaN/Infinity rejection
  branches (`isNaN(x) || !Number.isFinite(x)`) can never fire in the model
  and are noted with comments where they occur in the source.
* Methods that `throw` are modelled as functions into `Except`; an
  `Except.error` result carries no successor state, mirroring the fact
  that the source throws before any mutation in that branch.
* The numeric-to-string conversion performed by JS template interpolation
  on stored values and bucket bounds is passed in as a parameter
  `ns : ℚ → String` of the render functions; integer counts (histogram
  bucket counters) are rendered with `toString` on `ℕ`.
-/

/-- JS `Map.get`: first entry with the given key, if any. -/
def jget [DecidableEq κ] (k : κ) : List (κ × β) → Option β
  | [] => none
  | (k', v) :: rest => if k' = k then some v else jget k rest

/-- Lookup with a default, modelling the source's `map.get(k) || d` /
`map.get(k) ?? d` patterns (for number values the only falsy stored
rational would be `0`, for which both sides agree). -/
def jgetD [DecidableEq κ] (k : κ) (m : List (κ × β)) (d : β) : β :=
  (jget k m).getD d

/-- JS `Map.set`: replace the value of an existing key in place, else
append a new entry at the end (insertion order preserved). -/
def jset [DecidableEq κ] (k : κ) (v : β) : List (κ × β) → List (κ × β)
  | [] => [(k, v)]
  | (k', v') :: rest => if k' = k then (k, v) :: rest else (k', v') :: jset k v rest

/-- JS `Map.delete`: remove the entry for the key, returning whether it
was present together with the remaining entries. -/
def jdelete [DecidableEq κ] (k : κ) : List (κ × β) → Bool × List (κ × β)
  | [] => (false, [])
  | (k', v') :: rest =>
      if k' = k then (true, rest)
      else
        let r := jdelete k rest
        (r.1, (k', v') :: r.2)

/-- Concatenation of a list of strings, modelling the `output += piece`
accumulation loops of the render methods. -/
def strJoin : List String → String
  | [] => ""
  | s :: rest => s ++ strJoin rest

/-- Errors thrown by the metric classes.  `labelCountMismatch` carries the
expected and actual counts (message "Label count mismatch, expected E but
got A"); `labelCountMismatchBare` is `Gauge.get`'s plain
"Label count mismatch" error, which carries no counts; `negativeAmount` is
the Counter's "Counter cannot be decreased"; `typeError` covers the
`TypeError` thrown by `Histogram.observe` when the value argument is
missing after a labels array. -/
inductive MetricError where
  | labelCountMismatch (expected actual : ℕ)
  | labelCountMismatchBare
  | negativeAmount
  | typeError
  deriving DecidableEq, Repr

/-- Error thrown by `Registry.register` on a duplicate name. -/
inductive RegistryError where
  | duplicateName (name : String)
  deriving DecidableEq, Repr

/-- Decidable equality for `Except` results, so that the model can be
evaluated on concrete inputs. -/
instance [DecidableEq ε] [DecidableEq α] : DecidableEq (Except ε α) := fun x y =>
  match x, y with
  | .error e, .error f =>
      if h : e = f then .isTrue (congrArg Except.error h)
      else .isFalse fun hc => h (Except.error.inj hc)
  | .ok a, .ok b =>
      if h : a = b then .isTrue (congrArg Except.ok h)
      else .isFalse fun hc => h (Except.ok.inj hc)
  | .error _, .ok _ => .isFalse fun hc => Except.noConfusion hc
  | .ok _, .error _ => .isFalse fun hc => Except.noConfusion hc

/-- First argument of the overloaded metric methods: either a number or a
labels array (`arg1: number | string[]` in the source). -/
inductive NumOrLabels where
  | num (q : ℚ)
  | labels (ls : List String)
  deriving DecidableEq, Repr

/-- `src/src/metrics/Counter.ts`: name, help, declared label names, and the
per-label-combination value map. -/
structure Counter where
  name : String
  help : String
  labels : List String
  values : List (List String × ℚ)
  deriving DecidableEq, Repr

/-- `Counter.inc(arg1?: number | string[], arg2?: number)`.  Dispatch: no
argument ⇒ amount 1; number ⇒ that amount with empty labels; array ⇒
labels with `arg2 ?? 1`.  Checks label count, then finiteness (vacuous
over `ℚ`), then non-negativity, then adds into the map. -/
def Counter.inc (c : Counter) (arg1 : Option NumOrLabels) (arg2 : Option ℚ) :
    Except MetricError Counter :=
  let p : List String × ℚ :=
    match arg1 with
    | none => ([], 1)
    | some (.num q) => ([], q)
    | some (.labels ls) => (ls, arg2.getD 1)
  if p.1.length ≠ c.labels.length then
    .error (.labelCountMismatch c.labels.length p.1.length)
  -- the source's NaN/Infinity rejection cannot fire for a rational amount
  else if p.2 < 0 then
    .error .negativeAmount
  else
    .ok { c with values := jset p.1 (jgetD p.1 c.values 0 + p.2) c.values }

/-- `Counter.getValue(labels: string[] = [])`: label-count check, then a
pure read defaulting to 0. -/
def Counter.getValue (c : Counter) (ls : List String) : Except MetricError ℚ :=
  if ls.length ≠ c.labels.length then
    .error (.labelCountMismatch c.labels.length ls.length)
  else
    .ok (jgetD ls c.values 0)

/-- One iteration of the label-rendering `for` loop shared by
`Counter.toPrometheus` and `Gauge.toPrometheus`: `'{'` on the first
index, `labelName="value"`, `', '` between entries and `close` after the
last (`"}"` for Counter, `"} "` for Gauge).  An out-of-range read of the
label values renders as JS `undefined` does. -/
def cgChunk (close : String) (names vals : List String) (i : ℕ) : String :=
  (if i = 0 then "\x7b" else "")
    ++ names.getD i "" ++ "=\x22" ++ vals.getD i "undefined" ++ "\x22"
    ++ (if i ≠ names.length - 1 then ", " else "")
    ++ (if i = names.length - 1 then close else "")

/-- The whole label-rendering loop of `Counter.toPrometheus` /
`Gauge.toPrometheus` (`for (let i = 0; i < labels.length; i++) ...`). -/
def cgLoop (close : String) (names vals : List String) : String :=
  strJoin ((List.range names.length).map (cgChunk close names vals))

/-- `Counter.toPrometheus()`: HELP line (with the source's trailing space
after the help text), TYPE line, then one data line per stored entry. -/
def Counter.toPrometheus (ns : ℚ → String) (c : Counter) : String :=
  "# HELP " ++ c.name ++ " " ++ c.help ++ " \n"
    ++ "# TYPE " ++ c.name ++ " counter\n"
    ++ strJoin (c.values.map fun p =>
        c.name ++ cgLoop "\x7d" c.labels p.1 ++ " " ++ ns p.2 ++ "\n")

/-- `src/src/metrics/Gauge.ts`: same shape as `Counter`. -/
structure Gauge where
  name : String
  help : String
  labels : List String
  values : List (List String × ℚ)
  deriving DecidableEq, Repr

/-- `Gauge.inc(arg1?, arg2?)`: number-or-missing first argument ⇒ empty
labels with `arg1 ?? 1`; array ⇒ labels with `arg2 ?? 1`.  Label-count
check, finiteness check (vacuous over `ℚ`), then adds. -/
def Gauge.inc (g : Gauge) (arg1 : Option NumOrLabels) (arg2 : Option ℚ) :
    Except MetricError Gauge :=
  let p : List String × ℚ :=
    match arg1 with
    | none => ([], 1)
    | some (.num q) => ([], q)
    | some (.labels ls) => (ls, arg2.getD 1)
  if p.1.length ≠ g.labels.length then
    .error (.labelCountMismatch g.labels.length p.1.length)
  else
    .ok { g with values := jset p.1 (jgetD p.1 g.values 0 + p.2) g.values }

/-- `Gauge.dec(arg1?, arg2?)`: identical to `inc` but subtracting. -/
def Gauge.dec (g : Gauge) (arg1 : Option NumOrLabels) (arg2 : Option ℚ) :
    Except MetricError Gauge :=
  let p : List String × ℚ :=
    match arg1 with
    | none => ([], 1)
    | some (.num q) => ([], q)
    | some (.labels ls) => (ls, arg2.getD 1)
  if p.1.length ≠ g.labels.length then
    .error (.labelCountMismatch g.labels.length p.1.length)
  else
    .ok { g with values := jset p.1 (jgetD p.1 g.values 0 - p.2) g.values }

/-- `Gauge.set(arg1: number | string[], arg2?: number)`: number ⇒ empty
labels with that value; array ⇒ labels with `arg2 ?? 0`.  The source
performs NO label-count check here (unlike every other operation); after
the finiteness check (vacuous over `ℚ`) it overwrites the key. -/
def Gauge.set (g : Gauge) (arg1 : NumOrLabels) (arg2 : Option ℚ) :
    Except MetricError Gauge :=
  let p : List String × ℚ :=
    match arg1 with
    | .num q => ([], q)
    | .labels ls => (ls, arg2.getD 0)
  .ok { g with values := jset p.1 p.2 g.values }

/-- `Gauge.get(labels: string[] = [])`: throws the bare
"Label count mismatch" error (no counts in the message), else reads with
default 0. -/
def Gauge.get (g : Gauge) (ls : List String) : Except MetricError ℚ :=
  if ls.length ≠ g.labels.length then
    .error .labelCountMismatchBare
  else
    .ok (jgetD ls g.values 0)

/-- `Gauge.toPrometheus()`: HELP and TYPE lines each with the source's
trailing space, then one data line per entry with a space between the
metric name and the label block (`close` string `"} "`). -/
def Gauge.toPrometheus (ns : ℚ → String) (g : Gauge) : String :=
  "# HELP " ++ g.name ++ " " ++ g.help ++ " \n"
    ++ "# TYPE " ++ g.name ++ " gauge \n"
    ++ strJoin (g.values.map fun p =>
        g.name ++ " " ++ cgLoop "\x7d " g.labels p.1 ++ ns p.2 ++ "\n")

/-- `src/metrics/Histogram.ts`: bucket bounds (sorted at construction),
declared label names, and three per-label-combination maps: the bucket
count map, the running sum and the observation count. -/
structure Histogram where
  name : String
  help : String
  buckets : List ℚ
  labels : List String
  counts : List (List String × List (ℚ × ℕ))
  totalSum : List (List String × ℚ)
  totalCount : List (List String × ℕ)
  deriving DecidableEq, Repr

/-- The `Histogram` constructor: `[...buckets].sort((a, b) => a - b)` is an
ascending numeric sort; on rationals any sorted rearrangement is the same
list, so it is modelled with insertion sort.  The maps start empty. -/
def Histogram.mkH (name help : String) (buckets : List ℚ) (labelNames : List String) :
    Histogram :=
  { name := name, help := help
    buckets := buckets.insertionSort (· ≤ ·)
    labels := labelNames
    counts := [], totalSum := [], totalCount := [] }

/-- Body of `Histogram.observe` after argument dispatch: label-count
check, finiteness check (vacuous over `ℚ`), lazy initialisation of the
key's three entries (`new Map(this.buckets.map(b => [b, 0]))` is the
`Map` constructor inserting each pair in order), the cumulative-bucket
loop, and the sum/count updates.  The source mutates the bucket map
obtained from `counts` in place; functionally that is writing the updated
map back under the key. -/
def Histogram.observeCore (h : Histogram) (ls : List String) (v : ℚ) :
    Except MetricError Histogram :=
  if ls.length ≠ h.labels.length then
    .error (.labelCountMismatch h.labels.length ls.length)
  else
    let counts1 := if (jget ls h.counts).isSome then h.counts
      else jset ls (h.buckets.foldl (fun m b => jset b 0 m) []) h.counts
    let sums1 := if (jget ls h.counts).isSome then h.totalSum
      else jset ls 0 h.totalSum
    let cnts1 := if (jget ls h.counts).isSome then h.totalCount
      else jset ls 0 h.totalCount
    let bm := jgetD ls counts1 []
    let bm2 := h.buckets.foldl (fun m b => if v ≤ b then jset b (jgetD b m 0 + 1) m else m) bm
    .ok { h with
      counts := jset ls bm2 counts1
      totalSum := jset ls (jgetD ls sums1 0 + v) sums1
      totalCount := jset ls (jgetD ls cnts1 0 + 1) cnts1 }

/-- `Histogram.observe(arg1: number | string[], arg2?: number)`: a number
first argument means no labels; a labels array requires a numeric second
argument (else `TypeError`). -/
def Histogram.observe (h : Histogram) (arg1 : NumOrLabels) (arg2 : Option ℚ) :
    Except MetricError Histogram :=
  match arg1, arg2 with
  | .num v, _ => Histogram.observeCore h [] v
  | .labels _, none => .error .typeError
  | .labels ls, some v => Histogram.observeCore h ls v

/-- `Histogram.get(labels: string[] = [])`: label-count check, then
`{ totalCount, totalSum }` with 0 defaults. -/
def Histogram.get (h : Histogram) (ls : List String) : Except MetricError (ℕ × ℚ) :=
  if ls.length ≠ h.labels.length then
    .error (.labelCountMismatch h.labels.length ls.length)
  else
    .ok (jgetD ls h.totalCount 0, jgetD ls h.totalSum 0)

/-- State observer: the stored cumulative count for bucket bound `b` under
label combination `k` (0 if the key or the bound is absent). -/
def Histogram.bucketAt (h : Histogram) (k : List String) (b : ℚ) : ℕ :=
  jgetD b (jgetD k h.counts []) 0

/-- State observer: the stored running sum for label combination `k`. -/
def Histogram.sumAt (h : Histogram) (k : List String) : ℚ :=
  jgetD k h.totalSum 0

/-- State observer: the stored observation count for label combination `k`. -/
def Histogram.countAt (h : Histogram) (k : List String) : ℕ :=
  jgetD k h.totalCount 0

/-- The label-pair loop of the histogram bucket lines
(`output += labels[i]="..." followed by ", "` for every index). -/
def histPairs (names vals : List String) : String :=
  strJoin ((List.range names.length).map fun i =>
    names.getD i "" ++ "=\x22" ++ vals.getD i "undefined" ++ "\x22, ")

/-- The label-pair loop of the histogram `_sum`/`_count` lines
(`', '` only between entries). -/
def histSCPairs (names vals : List String) : String :=
  strJoin ((List.range names.length).map fun i =>
    names.getD i "" ++ "=\x22" ++ vals.getD i "undefined" ++ "\x22"
      ++ (if i < names.length - 1 then ", " else ""))

/-- One explicit-bucket line of `Histogram.toPrometheus`, reading the
count from the iterated bucket map `bm` (`bucketMap.get(bucket) || 0`). -/
def bucketLine (ns : ℚ → String) (nm : String) (labelNames k : List String)
    (bm : List (ℚ × ℕ)) (b : ℚ) : String :=
  nm ++ "_bucket"
    ++ (if labelNames.length > 0 then
          "\x7b" ++ histPairs labelNames k ++ "le=\x22" ++ ns b ++ "\x22\x7d"
        else "\x7ble=\x22" ++ ns b ++ "\x22\x7d")
    ++ " " ++ toString (jgetD b bm 0) ++ "\n"

/-- The `+Inf` bucket line of `Histogram.toPrometheus` for key `k`: its
count is read from the `totalCount` map (`this.totalCount.get(key) || 0`),
not from the bucket map. -/
def Histogram.infLineFor (h : Histogram) (k : List String) : String :=
  h.name ++ "_bucket"
    ++ (if h.labels.length > 0 then
          "\x7b" ++ histPairs h.labels k ++ "le=\x22+Inf\x22\x7d"
        else "\x7ble=\x22+Inf\x22\x7d")
    ++ " " ++ toString (jgetD k h.totalCount 0) ++ "\n"

/-- The `_sum` line of `Histogram.toPrometheus` for key `k`. -/
def Histogram.sumLineFor (ns : ℚ → String) (h : Histogram) (k : List String) : String :=
  h.name ++ "_sum"
    ++ (if h.labels.length > 0 then "\x7b" ++ histSCPairs h.labels k ++ "\x7d" else "")
    ++ " " ++ ns (jgetD k h.totalSum 0) ++ "\n"

/-- The `_count` line of `Histogram.toPrometheus` for key `k`. -/
def Histogram.countLineFor (h : Histogram) (k : List String) : String :=
  h.name ++ "_count"
    ++ (if h.labels.length > 0 then "\x7b" ++ histSCPairs h.labels k ++ "\x7d" else "")
    ++ " " ++ toString (jgetD k h.totalCount 0) ++ "\n"

/-- `Histogram.toPrometheus()`: HELP/TYPE header (no trailing spaces for
the histogram), then for every stored key: one line per declared bucket
bound in stored (ascending) order, the `+Inf` line, the sum line and the
count line. -/
def Histogram.toPrometheus (ns : ℚ → String) (h : Histogram) : String :=
  "# HELP " ++ h.name ++ " " ++ h.help ++ "\n"
    ++ "# TYPE " ++ h.name ++ " histogram\n"
    ++ strJoin (h.counts.map fun p =>
        strJoin (h.buckets.map (bucketLine ns h.name h.labels p.1 p.2))
          ++ Histogram.infLineFor h p.1
          ++ Histogram.sumLineFor ns h p.1
          ++ Histogram.countLineFor h p.1)

/-- The `Registry` of `src/index.ts`, polymorphic in the stored metric
type (the registry never inspects the metrics for the operations studied
here). -/
structure Registry (μ : Type) where
  mets : List (String × μ)
  deriving DecidableEq, Repr

/-- `Registry.register(name, metric)`: `DuplicateName` error if the name
is present, else store it. -/
def Registry.register (r : Registry μ) (n : String) (m : μ) :
    Except RegistryError (Registry μ) :=
  if (jget n r.mets).isSome then
    .error (.duplicateName n)
  else
    .ok ⟨jset n m r.mets⟩

/-- `Registry.unregister(name)`: `Map.delete` — returns whether the entry
existed, along with the remaining registry; never fails. -/
def Registry.unregister (r : Registry μ) (n : String) : Bool × Registry μ :=
  let d := jdelete n r.mets
  (d.1, ⟨d.2⟩)

/-- `Registry.getMetric(name)`. -/
def Registry.getMetric (r : Registry μ) (n : String) : Option μ :=
  jget n r.mets

/-- `Registry.getMetricNames()`. -/
def Registry.getMetricNames (r : Registry μ) : List String :=
  r.mets.map Prod.fst

/-- Spec-side harness: run `counter.inc(ls, a)` for each amount in turn,
stopping at the first error. -/
def applyCounterIncs (ls : List String) : Counter → List ℚ → Except MetricError Counter
  | c, [] => .ok c
  | c, a :: rest =>
      match Counter.inc c (some (.labels ls)) (some a) with
      | .ok c₁ => applyCounterIncs ls c₁ rest
      | .error e => .error e

/-- Spec-side harness: one queued Gauge mutation. -/
inductive GaugeOp where
  | setOp (q : ℚ)
  | incOp (q : ℚ)
  | decOp (q : ℚ)
  deriving DecidableEq, Repr

/-- Spec-side harness: run one Gauge mutation with explicit labels. -/
def applyGaugeOp (g : Gauge) (ls : List String) : GaugeOp → Except MetricError Gauge
  | .setOp q => Gauge.set g (.labels ls) (some q)
  | .incOp q => Gauge.inc g (some (.labels ls)) (some q)
  | .decOp q => Gauge.dec g (some (.labels ls)) (some q)

/-- Spec-side harness: run a sequence of Gauge mutations. -/
def applyGaugeOps (ls : List String) : Gauge → List GaugeOp → Except MetricError Gauge
  | g, [] => .ok g
  | g, op :: rest =>
      match applyGaugeOp g ls op with
      | .ok g₁ => applyGaugeOps ls g₁ rest
      | .error e => .error e

/-- The left-to-right arithmetic fold the spec prescribes for a Gauge:
`set` overwrites, `inc` adds, `dec` subtracts. -/
def gaugeFold (acc : ℚ) : List GaugeOp → ℚ
  | [] => acc
  | .setOp q :: rest => gaugeFold q rest
  | .incOp q :: rest => gaugeFold (acc + q) rest
  | .decOp q :: rest => gaugeFold (acc - q) rest

/-- Spec-side harness: run `histogram.observe(ls, v)` for each value in
turn, stopping at the first error. -/
def applyObserves (ls : List String) : Histogram → List ℚ → Except MetricError Histogram
  | h, [] => .ok h
  | h, v :: rest =>
      match Histogram.observe h (.labels ls) (some v) with
      | .ok h₁ => applyObserves ls h₁ rest
      | .error e => .error e

/-- Spec-side rendering of one `name="value"` label pair. -/
def pairStr (p : String × String) : String :=
  p.1 ++ "=\x22" ++ p.2 ++ "\x22"

/-- Spec-side rendering of a comma-separated label pair list, following
the spec's `label1="v1", label2="v2"` wording. -/
def pairsStr : List (String × String) → String
  | [] => ""
  | [p] => pairStr p
  | p :: q :: rest => pairStr p ++ ", " ++ pairsStr (q :: rest)

/-- Spec-side label block: empty for a zero-label metric, else an opening
brace, the comma-separated pairs, and `close`. -/
def specLabelBlock (close : String) (names vals : List String) : String :=
  if names = [] then "" else "\x7b" ++ pairsStr (names.zip vals) ++ close

/-- A concrete numeric renderer used by witnesses: integers render
without a decimal point, as JS number-to-string does on integral values. -/
def qRender (q : ℚ) : String :=
  if q.den = 1 then toString q.num else toString q.num ++ "/" ++ toString q.den

/-- Proof auxiliary: the body of `cgChunk` without the leading-brace
conditional. -/
def cgTailChunk (close : String) (names vals : List String) (i : ℕ) : String :=
  names.getD i "" ++ "=\x22" ++ vals.getD i "undefined" ++ "\x22"
    ++ (if i ≠ names.length - 1 then ", " else "")
    ++ (if i = names.length - 1 then close else "")

/-- Proof auxiliary: the counter/gauge label loop without the opening
brace. -/
def cgTail (close : String) (names vals : List String) : String :=
  strJoin ((List.range names.length).map (cgTailChunk close names vals))

/-! ### Association-list map lemmas -/

lemma jget_jset_self [DecidableEq κ] (k : κ) (v : β) (m : List (κ × β)) :
    jget k (jset k v m) = some v := by
  induction m with
  | nil => simp [jset, jget]
  | cons hd tl ih =>
      obtain ⟨k', v'⟩ := hd
      by_cases h : k' = k
      · subst h; simp [jset, jget]
      · simp [jset, jget, h, ih]

lemma jget_jset_ne [DecidableEq κ] (k w : κ) (v : β) (m : List (κ × β)) (hw : w ≠ k) :
    jget w (jset k v m) = jget w m := by
  induction m with
  | nil => simp [jset, jget, Ne.symm hw]
  | cons hd tl ih =>
      obtain ⟨k', v'⟩ := hd
      by_cases h : k' = k
      · subst h
        simp [jset, jget, Ne.symm hw]
      · simp only [jset, if_neg h]
        by_cases h2 : k' = w
        · simp [jget, h2]
        · simp [jget, h2, ih]

lemma jgetD_jset_self [DecidableEq κ] (k : κ) (v : β) (m : List (κ × β)) (d : β) :
    jgetD k (jset k v m) d = v := by
  simp [jgetD, jget_jset_self]

lemma jgetD_jset_ne [DecidableEq κ] (k w : κ) (v : β) (m : List (κ × β)) (d : β)
    (hw : w ≠ k) : jgetD w (jset k v m) d = jgetD w m d := by
  simp [jgetD, jget_jset_ne _ _ _ _ hw]

lemma jget_eq_none_of_not_mem [DecidableEq κ] (k : κ) (m : List (κ × β))
    (h : k ∉ m.map Prod.fst) : jget k m = none := by
  induction m with
  | nil => simp [jget]
  | cons hd tl ih =>
      obtain ⟨k', v'⟩ := hd
      simp only [List.map_cons, List.mem_cons] at h
      push_neg at h
      simp [jget, Ne.symm h.1, ih h.2]

lemma jdelete_fst [DecidableEq κ] (k : κ) (m : List (κ × β)) :
    (jdelete k m).1 = (jget k m).isSome := by
  induction m with
  | nil => simp [jdelete, jget]
  | cons hd tl ih =>
      obtain ⟨k', v'⟩ := hd
      by_cases h : k' = k
      · simp [jdelete, jget, h]
      · simp [jdelete, jget, h, ih]

lemma jget_jdelete_self [DecidableEq κ] (k : κ) (m : List (κ × β))
    (hnd : (m.map Prod.fst).Nodup) : jget k (jdelete k m).2 = none := by
  induction m with
  | nil => simp [jdelete, jget]
  | cons hd tl ih =>
      obtain ⟨k', v'⟩ := hd
      simp only [List.map_cons, List.nodup_cons] at hnd
      by_cases h : k' = k
      · subst h
        simp only [jdelete, if_pos rfl]
        exact jget_eq_none_of_not_mem _ _ hnd.1
      · simp [jdelete, jget, h, ih hnd.2]

/-! ### Counter lemmas -/

lemma counter_inc_ok (c : Counter) (ls : List String) (a : ℚ)
    (h : ls.length = c.labels.length) (ha : 0 ≤ a) :
    Counter.inc c (some (.labels ls)) (some a) =
      .ok { c with values := jset ls (jgetD ls c.values 0 + a) c.values } := by
  simp [Counter.inc, h, not_lt.mpr ha]

lemma applyCounterIncs_ok (ls : List String) (amts : List ℚ) :
    ∀ c : Counter, ls.length = c.labels.length → (∀ a ∈ amts, 0 ≤ a) →
      ∃ c', applyCounterIncs ls c amts = .ok c' ∧ c'.labels = c.labels ∧
        jgetD ls c'.values 0 = jgetD ls c.values 0 + amts.sum := by
  induction amts with
  | nil =>
      intro c h _
      exact ⟨c, rfl, rfl, by simp⟩
  | cons a rest ih =>
      intro c h hnn
      have ha : 0 ≤ a := hnn a (List.mem_cons_self a rest)
      have step := counter_inc_ok c ls a h ha
      obtain ⟨c', hrun, hlab, hval⟩ :=
        ih { c with values := jset ls (jgetD ls c.values 0 + a) c.values } h
          (fun b hb => hnn b (List.mem_cons_of_mem _ hb))
      refine ⟨c', ?_, by simpa using hlab, ?_⟩
      · simp only [applyCounterIncs, step]
        exact hrun
      · rw [hval]
        simp only [jgetD_jset_self, List.sum_cons]
        ring

/-! ### Gauge lemmas -/

lemma gauge_inc_ok (g : Gauge) (ls : List String) (q : ℚ)
    (h : ls.length = g.labels.length) :
    Gauge.inc g (some (.labels ls)) (some q) =
      .ok { g with values := jset ls (jgetD ls g.values 0 + q) g.values } := by
  simp [Gauge.inc, h]

lemma gauge_dec_ok (g : Gauge) (ls : List String) (q : ℚ)
    (h : ls.length = g.labels.length) :
    Gauge.dec g (some (.labels ls)) (some q) =
      .ok { g with values := jset ls (jgetD ls g.values 0 - q) g.values } := by
  simp [Gauge.dec, h]

lemma gauge_set_ok (g : Gauge) (ls : List String) (q : ℚ) :
    Gauge.set g (.labels ls) (some q) = .ok { g with values := jset ls q g.values } := by
  simp [Gauge.set]

lemma applyGaugeOps_ok (ls : List String) (ops : List GaugeOp) :
    ∀ g : Gauge, ls.length = g.labels.length →
      ∃ g', applyGaugeOps ls g ops = .ok g' ∧ g'.labels = g.labels ∧
        jgetD ls g'.values 0 = gaugeFold (jgetD ls g.values 0) ops := by
  induction ops with
  | nil =>
      intro g h
      exact ⟨g, rfl, rfl, rfl⟩
  | cons op rest ih =>
      intro g h
      cases op with
      | setOp q =>
          obtain ⟨g', hrun, hlab, hval⟩ := ih { g with values := jset ls q g.values } h
          refine ⟨g', ?_, by simpa using hlab, ?_⟩
          · simp only [applyGaugeOps, applyGaugeOp, gauge_set_ok]
            exact hrun
          · rw [hval]; simp [jgetD_jset_self, gaugeFold]
      | incOp q =>
          obtain ⟨g', hrun, hlab, hval⟩ :=
            ih { g with values := jset ls (jgetD ls g.values 0 + q) g.values } h
          refine ⟨g', ?_, by simpa using hlab, ?_⟩
          · simp only [applyGaugeOps, applyGaugeOp, gauge_inc_ok _ _ _ h]
            exact hrun
          · rw [hval]; simp [jgetD_jset_self, gaugeFold]
      | decOp q =>
          obtain ⟨g', hrun, hlab, hval⟩ :=
            ih { g with values := jset ls (jgetD ls g.values 0 - q) g.values } h
          refine ⟨g', ?_, by simpa using hlab, ?_⟩
          · simp only [applyGaugeOps, applyGaugeOp, gauge_dec_ok _ _ _ h]
            exact hrun
          · rw [hval]; simp [jgetD_jset_self, gaugeFold]

/-! ### Histogram lemmas -/

lemma init_buckets_zero (l : List ℚ) :
    ∀ m : List (ℚ × ℕ), (∀ b, jgetD b m 0 = 0) →
      ∀ b, jgetD b (l.foldl (fun m c => jset c (0 : ℕ) m) m) 0 = 0 := by
  induction l with
  | nil => intro m hm b; simpa using hm b
  | cons c rest ih =>
      intro m hm b
      simp only [List.foldl_cons]
      refine ih (jset c 0 m) ?_ b
      intro b'
      by_cases hb : b' = c
      · subst hb; simp [jgetD_jset_self]
      · rw [jgetD_jset_ne _ _ _ _ _ hb]; exact hm b'

lemma bump_fold (v : ℚ) (l : List ℚ) :
    ∀ m : List (ℚ × ℕ), l.Nodup → ∀ b,
      jgetD b (l.foldl (fun m c => if v ≤ c then jset c (jgetD c m 0 + 1) m else m) m) 0
        = jgetD b m 0 + (if b ∈ l ∧ v ≤ b then 1 else 0) := by
  induction l with
  | nil => intro m _ b; simp
  | cons c rest ih =>
      intro m hnd b
      simp only [List.nodup_cons] at hnd
      simp only [List.foldl_cons]
      rw [ih _ hnd.2 b]
      by_cases hb : b = c
      · subst hb
        have hbr : b ∉ rest := hnd.1
        by_cases hv : v ≤ b
        · simp [hv, jgetD_jset_self, hbr]
        · simp [hv, hbr]
      · have hset : jgetD b (if v ≤ c then jset c (jgetD c m 0 + 1) m else m) 0
            = jgetD b m 0 := by
          by_cases hv : v ≤ c
          · simp [hv, jgetD_jset_ne _ _ _ _ _ hb]
          · simp [hv]
        rw [hset]
        simp [List.mem_cons, hb]

lemma observeCore_ok (h : Histogram) (ls : List String) (v : ℚ)
    (hv : ls.length = h.labels.length)
    (hcon : (jget ls h.counts).isSome = false →
      jget ls h.totalSum = none ∧ jget ls h.totalCount = none) :
    ∃ h', Histogram.observeCore h ls v = .ok h' ∧
      h'.name = h.name ∧ h'.help = h.help ∧ h'.labels = h.labels ∧
      h'.buckets = h.buckets ∧
      (jget ls h'.counts).isSome = true ∧
      (h.buckets.Nodup → ∀ b ∈ h.buckets,
        Histogram.bucketAt h' ls b = Histogram.bucketAt h ls b + (if v ≤ b then 1 else 0)) ∧
      Histogram.sumAt h' ls = Histogram.sumAt h ls + v ∧
      Histogram.countAt h' ls = Histogram.countAt h ls + 1 := by
  by_cases hs : (jget ls h.counts).isSome
  · refine ⟨{ h with
        counts := jset ls
          (h.buckets.foldl (fun m b => if v ≤ b then jset b (jgetD b m 0 + 1) m else m)
            (jgetD ls h.counts [])) h.counts
        totalSum := jset ls (jgetD ls h.totalSum 0 + v) h.totalSum
        totalCount := jset ls (jgetD ls h.totalCount 0 + 1) h.totalCount },
      ?_, rfl, rfl, rfl, rfl, ?_, ?_, ?_, ?_⟩
    · simp [Histogram.observeCore, hv, hs]
    · simp [jget_jset_self]
    · intro hnd b hb
      simp only [Histogram.bucketAt]
      rw [jgetD_jset_self]
      rw [bump_fold v h.buckets _ hnd b]
      simp [hb]
    · simp [Histogram.sumAt, jgetD_jset_self]
    · simp [Histogram.countAt, jgetD_jset_self]
  · have hsome_false : (jget ls h.counts).isSome = false := by simpa using hs
    have hsum := (hcon hsome_false).1
    have hcnt := (hcon hsome_false).2
    have hget : jgetD ls h.counts ([] : List (ℚ × ℕ)) = [] := by
      simp only [jgetD]
      cases hjc : jget ls h.counts with
      | none => rfl
      | some x => rw [hjc] at hsome_false; simp at hsome_false
    refine ⟨{ h with
        counts := jset ls
          (h.buckets.foldl (fun m b => if v ≤ b then jset b (jgetD b m 0 + 1) m else m)
            (h.buckets.foldl (fun m b => jset b (0 : ℕ) m) []))
          (jset ls (h.buckets.foldl (fun m b => jset b (0 : ℕ) m) []) h.counts)
        totalSum := jset ls (0 + v) (jset ls 0 h.totalSum)
        totalCount := jset ls (0 + 1) (jset ls 0 h.totalCount) },
      ?_, rfl, rfl, rfl, rfl, ?_, ?_, ?_, ?_⟩
    · simp [Histogram.observeCore, hv, hsome_false, jgetD_jset_self]
    · simp [jget_jset_self]
    · intro hnd b hb
      simp only [Histogram.bucketAt]
      rw [jgetD_jset_self]
      rw [bump_fold v h.buckets _ hnd b]
      have hz : ∀ b', jgetD b' (h.buckets.foldl (fun m c => jset c (0 : ℕ) m) []) 0 = 0 :=
        init_buckets_zero h.buckets [] (by intro b'; simp [jgetD, jget])
      rw [hz b, hget]
      simp [jgetD, jget, hb]
    · simp [Histogram.sumAt, jgetD_jset_self, jgetD, hsum, jget_jset_self]
    · simp [Histogram.countAt, jgetD_jset_self, jgetD, hcnt, jget_jset_self]

lemma applyObserves_ok (ls : List String) (obs : List ℚ) :
    ∀ h : Histogram, ls.length = h.labels.length →
      ((jget ls h.counts).isSome = false →
        jget ls h.totalSum = none ∧ jget ls h.totalCount = none) →
      ∃ h', applyObserves ls h obs = .ok h' ∧
        h'.name = h.name ∧ h'.help = h.help ∧ h'.labels = h.labels ∧
        h'.buckets = h.buckets ∧
        (h.buckets.Nodup → ∀ b ∈ h.buckets,
          Histogram.bucketAt h' ls b
            = Histogram.bucketAt h ls b + obs.countP (fun y => decide (y ≤ b))) ∧
        Histogram.sumAt h' ls = Histogram.sumAt h ls + obs.sum ∧
        Histogram.countAt h' ls = Histogram.countAt h ls + obs.length := by
  induction obs with
  | nil =>
      intro h hv _
      exact ⟨h, rfl, rfl, rfl, rfl, rfl, by intro _ b _; simp, by simp, by simp⟩
  | cons x rest ih =>
      intro h hv hcon
      obtain ⟨h₁, hstep, hnm, hhp, hlab, hbk, hsome, hbump, hsum, hcnt⟩ :=
        observeCore_ok h ls x hv hcon
      obtain ⟨h', hrun, hnm', hhp', hlab', hbk', hbump', hsum', hcnt'⟩ :=
        ih h₁ (by rw [hlab]; exact hv) (by intro hfalse; rw [hsome] at hfalse; cases hfalse)
      refine ⟨h', ?_, by rw [hnm', hnm], by rw [hhp', hhp], by rw [hlab', hlab],
        by rw [hbk', hbk], ?_, ?_, ?_⟩
      · have hobs : Histogram.observe h (.labels ls) (some x) = .ok h₁ := hstep
        simp only [applyObserves, hobs]
        exact hrun
      · intro hnd b hb
        have hbump₁ := hbump hnd b hb
        have hbump₂ := hbump' (by rw [hbk]; exact hnd) b (by rw [hbk]; exact hb)
        rw [hbump₂, hbump₁, List.countP_cons]
        by_cases hxb : x ≤ b
        · simp [hxb]; omega
        · simp [hxb]
      · rw [hsum', hsum, List.sum_cons]; ring
      · rw [hcnt', hcnt, List.length_cons]; omega

/-! ### Render-loop lemmas: the index loops equal their zip/pair forms -/

lemma strJoin_cons (s : String) (l : List String) : strJoin (s :: l) = s ++ strJoin l := rfl

lemma range_map_str (f : ℕ → String) (n : ℕ) :
    (List.range (n + 1)).map f = f 0 :: (List.range n).map fun i => f (i + 1) := by
  rw [List.range_succ_eq_map]
  simp [List.map_map, Function.comp_def]

lemma range_loop_eq_zip (f : String → String → String) :
    ∀ names vals : List String, names.length = vals.length →
      (List.range names.length).map (fun i => f (names.getD i "") (vals.getD i "undefined"))
        = (names.zip vals).map fun p => f p.1 p.2 := by
  intro names
  induction names with
  | nil =>
      intro vals h
      cases vals with
      | nil => rfl
      | cons v vs => simp at h
  | cons n₀ ns ih =>
      intro vals h
      cases vals with
      | nil => simp at h
      | cons v₀ vs =>
          rw [show (n₀ :: ns).length = ns.length + 1 from rfl, range_map_str,
            List.zip_cons_cons, List.map_cons]
          congr 1
          rw [← ih vs (by simpa using h)]
          apply List.map_congr_left
          intro i _
          simp

lemma histPairs_eq_zip (names vals : List String) (h : names.length = vals.length) :
    histPairs names vals
      = strJoin ((names.zip vals).map fun p => p.1 ++ "=\x22" ++ p.2 ++ "\x22, ") :=
  congrArg strJoin (range_loop_eq_zip (fun a b => a ++ "=\x22" ++ b ++ "\x22, ") names vals h)

lemma cgTail_cons (close n₀ v₀ : String) (ns vs : List String) :
    cgTail close (n₀ :: ns) (v₀ :: vs) =
      (if ns = [] then pairStr (n₀, v₀) ++ close
       else pairStr (n₀, v₀) ++ ", " ++ cgTail close ns vs) := by
  unfold cgTail
  rw [show (n₀ :: ns).length = ns.length + 1 from rfl, range_map_str, strJoin_cons]
  by_cases hns : ns = []
  · subst hns
    simp [cgTailChunk, pairStr, String.append_assoc, strJoin, String.append_empty]
  · have hlen : ns.length ≠ 0 := fun hz => hns (List.eq_nil_of_length_eq_zero hz)
    have hmap : ((List.range ns.length).map fun i =>
          cgTailChunk close (n₀ :: ns) (v₀ :: vs) (i + 1))
        = (List.range ns.length).map (cgTailChunk close ns vs) := by
      apply List.map_congr_left
      intro i _
      have hiff : i + 1 = (n₀ :: ns).length - 1 ↔ i = ns.length - 1 := by
        simp only [List.length_cons, Nat.add_sub_cancel]
        omega
      simp only [cgTailChunk, List.getD_cons_succ]
      rw [if_congr (not_congr hiff) rfl rfl, if_congr hiff rfl rfl]
    rw [hmap, if_neg hns]
    have h0ne : (0 : ℕ) ≠ (n₀ :: ns).length - 1 := by
      simp only [List.length_cons, Nat.add_sub_cancel]
      omega
    simp only [cgTailChunk, List.getD_cons_zero, if_pos h0ne, if_neg h0ne]
    simp [pairStr, String.append_assoc]

lemma cgTail_eq_pairs (close : String) :
    ∀ names vals : List String, names.length = vals.length → names ≠ [] →
      cgTail close names vals = pairsStr (names.zip vals) ++ close := by
  intro names
  induction names with
  | nil => intro vals _ hne; exact absurd rfl hne
  | cons n₀ ns ih =>
      intro vals hlen _
      cases vals with
      | nil => simp at hlen
      | cons v₀ vs =>
          rw [cgTail_cons]
          by_cases hns : ns = []
          · subst hns
            have hvs : vs = [] := by
              cases vs with
              | nil => rfl
              | cons a b => simp at hlen
            subst hvs
            simp [pairsStr]
          · cases ns with
            | nil => exact absurd rfl hns
            | cons n₁ ns' =>
                cases vs with
                | nil => simp at hlen
                | cons v₁ vs' =>
                    rw [if_neg (by simp)]
                    rw [ih (v₁ :: vs') (by simpa using hlen) (by simp)]
                    simp [pairsStr, List.zip_cons_cons, String.append_assoc, List.zip]

lemma cgLoop_eq_spec (close : String) (names vals : List String)
    (h : names.length = vals.length) :
    cgLoop close names vals = specLabelBlock close names vals := by
  cases names with
  | nil => simp [cgLoop, specLabelBlock, strJoin]
  | cons n₀ ns =>
      cases vals with
      | nil => simp at h
      | cons v₀ vs =>
          have hsplit : cgLoop close (n₀ :: ns) (v₀ :: vs)
              = "\x7b" ++ cgTail close (n₀ :: ns) (v₀ :: vs) := by
            unfold cgLoop cgTail
            rw [show (n₀ :: ns).length = ns.length + 1 from rfl, range_map_str, range_map_str,
              strJoin_cons, strJoin_cons]
            have hchunk0 : cgChunk close (n₀ :: ns) (v₀ :: vs) 0
                = "\x7b" ++ cgTailChunk close (n₀ :: ns) (v₀ :: vs) 0 := by
              simp [cgChunk, cgTailChunk, String.append_assoc]
            have hmap : ((List.range ns.length).map fun i =>
                  cgChunk close (n₀ :: ns) (v₀ :: vs) (i + 1))
                = (List.range ns.length).map fun i =>
                  cgTailChunk close (n₀ :: ns) (v₀ :: vs) (i + 1) := by
              apply List.map_congr_left
              intro i _
              simp [cgChunk, cgTailChunk]
            rw [hchunk0, hmap, String.append_assoc]
          rw [hsplit, cgTail_eq_pairs close _ _ h (by simp)]
          simp [specLabelBlock, String.append_assoc]

/-! ### Histogram constructor lemmas -/

lemma mkH_buckets_sorted (name help : String) (buckets : List ℚ) (L : List String) :
    List.Sorted (· ≤ ·) (Histogram.mkH name help buckets L).buckets :=
  List.sorted_insertionSort _ _

lemma mkH_buckets_perm (name help : String) (buckets : List ℚ) (L : List String) :
    (Histogram.mkH name help buckets L).buckets.Perm buckets :=
  List.perm_insertionSort _ _

/-! ### Claim theorems -/

/-- Claim C2: for every Counter, every label-value sequence of the
declared length and every finite sequence of non-negative amounts, the
value after the increments equals the sum of the amounts (starting from 0
for an unseen key), independently of the order of application. -/
theorem counter_value_eq_sum_of_incs (c : Counter) (ls : List String) (amts : List ℚ)
    (hlen : ls.length = c.labels.length) (hfresh : jget ls c.values = none)
    (hnn : ∀ a ∈ amts, 0 ≤ a) :
    (∃ c', applyCounterIncs ls c amts = .ok c' ∧
      Counter.getValue c' ls = .ok amts.sum) ∧
    ∀ amts₂ : List ℚ, amts₂.Perm amts →
      ∃ c₂, applyCounterIncs ls c amts₂ = .ok c₂ ∧
        Counter.getValue c₂ ls = .ok amts.sum := by
  have hzero : jgetD ls c.values 0 = 0 := by simp [jgetD, hfresh]
  constructor
  · obtain ⟨c', hrun, hlab, hval⟩ := applyCounterIncs_ok ls amts c hlen hnn
    exact ⟨c', hrun, by simp [Counter.getValue, hlab, hlen, hval, hzero]⟩
  · intro amts₂ hperm
    obtain ⟨c₂, hrun, hlab, hval⟩ := applyCounterIncs_ok ls amts₂ c hlen
      (fun a ha => hnn a (hperm.mem_iff.mp ha))
    exact ⟨c₂, hrun, by simp [Counter.getValue, hlab, hlen, hval, hzero, hperm.sum_eq]⟩

theorem counter_value_eq_sum_of_incs_witness :
    ((["GET", "200"] : List String).length
        = (["method", "status"] : List String).length) ∧
    jget ["GET", "200"] ([] : List (List String × ℚ)) = none ∧
    (∀ a ∈ [(1 : ℚ), 3], 0 ≤ a) ∧
    ((∃ c', applyCounterIncs ["GET", "200"]
          ⟨"http_requests_total", "hh", ["method", "status"], []⟩ [(1 : ℚ), 3] = .ok c' ∧
        Counter.getValue c' ["GET", "200"] = .ok ([(1 : ℚ), 3]).sum) ∧
      ∀ amts₂ : List ℚ, amts₂.Perm [(1 : ℚ), 3] →
        ∃ c₂, applyCounterIncs ["GET", "200"]
            ⟨"http_requests_total", "hh", ["method", "status"], []⟩ amts₂ = .ok c₂ ∧
          Counter.getValue c₂ ["GET", "200"] = .ok ([(1 : ℚ), 3]).sum) :=
  ⟨by decide, by decide, by decide,
    counter_value_eq_sum_of_incs ⟨"http_requests_total", "hh", ["method", "status"], []⟩
      ["GET", "200"] [(1 : ℚ), 3] (by decide) (by decide) (by decide)⟩

/-- Claim C5: a Gauge's value after any sequence of successful set,
increment and decrement operations equals the left-to-right fold of those
operations starting from 0 for an unseen key; decrementing by a negative
finite delta succeeds and increases the gauge. -/
theorem gauge_value_eq_fold (g : Gauge) (ls : List String) (ops : List GaugeOp)
    (hlen : ls.length = g.labels.length) (hfresh : jget ls g.values = none) :
    (∃ g', applyGaugeOps ls g ops = .ok g' ∧
      Gauge.get g' ls = .ok (gaugeFold 0 ops)) ∧
    ∀ (g₂ : Gauge) (δ : ℚ), δ < 0 → ls.length = g₂.labels.length →
      ∃ g₂', Gauge.dec g₂ (some (.labels ls)) (some δ) = .ok g₂' ∧
        Gauge.get g₂' ls = .ok (jgetD ls g₂.values 0 - δ) ∧
        jgetD ls g₂.values 0 < jgetD ls g₂.values 0 - δ := by
  constructor
  · have hzero : jgetD ls g.values 0 = 0 := by simp [jgetD, hfresh]
    obtain ⟨g', hrun, hlab, hval⟩ := applyGaugeOps_ok ls ops g hlen
    exact ⟨g', hrun, by simp [Gauge.get, hlab, hlen, hval, hzero]⟩
  · intro g₂ δ hδ hlen₂
    refine ⟨_, gauge_dec_ok g₂ ls δ hlen₂, ?_, by linarith⟩
    simp [Gauge.get, hlen₂, jgetD_jset_self]

theorem gauge_value_eq_fold_witness :
    (([] : List String).length = ([] : List String).length) ∧
    jget ([] : List String) ([] : List (List String × ℚ)) = none ∧
    ((∃ g', applyGaugeOps [] ⟨"g", "h", [], []⟩
          [GaugeOp.setOp 10, GaugeOp.incOp 1, GaugeOp.decOp 4] = .ok g' ∧
        Gauge.get g' [] = .ok (gaugeFold 0 [GaugeOp.setOp 10, GaugeOp.incOp 1, GaugeOp.decOp 4])) ∧
      ∀ (g₂ : Gauge) (δ : ℚ), δ < 0 → ([] : List String).length = g₂.labels.length →
        ∃ g₂', Gauge.dec g₂ (some (.labels [])) (some δ) = .ok g₂' ∧
          Gauge.get g₂' [] = .ok (jgetD [] g₂.values 0 - δ) ∧
          jgetD [] g₂.values 0 < jgetD [] g₂.values 0 - δ) :=
  ⟨rfl, rfl, gauge_value_eq_fold ⟨"g", "h", [], []⟩ []
    [GaugeOp.setOp 10, GaugeOp.incOp 1, GaugeOp.decOp 4] rfl rfl⟩

/-- Claim C6: a Counter increment with a negative amount always fails and
leaves no successor state; when the label count matches, the error is
`NegativeAmount` (with a mismatched label count the earlier label check
fires instead, still with no mutation). -/
theorem counter_negative_inc_fails (c : Counter) (ls : List String) (a : ℚ)
    (o : Option ℚ) (ha : a < 0) :
    Counter.inc c (some (.labels ls)) (some a)
      = .error (if ls.length = c.labels.length then .negativeAmount
                else .labelCountMismatch c.labels.length ls.length) ∧
    Counter.inc c (some (.num a)) o
      = .error (if c.labels.length = 0 then .negativeAmount
                else .labelCountMismatch c.labels.length 0) := by
  constructor
  · by_cases h : ls.length = c.labels.length
    · simp [Counter.inc, h, ha]
    · simp [Counter.inc, h]
  · by_cases h : c.labels.length = 0
    · simp [Counter.inc, h, ha]
    · simp [Counter.inc, h, Ne.symm h]

theorem counter_negative_inc_fails_witness :
    ((-1 : ℚ) < 0) ∧
    (Counter.inc ⟨"c", "h", [], [([], 5)]⟩ (some (.labels [])) (some (-1))
      = .error (if ([] : List String).length = ([] : List String).length
                then .negativeAmount else .labelCountMismatch 0 0) ∧
    Counter.inc ⟨"c", "h", [], [([], 5)]⟩ (some (.num (-1))) none
      = .error (if ([] : List String).length = 0
                then .negativeAmount else .labelCountMismatch 0 0)) :=
  ⟨by decide, counter_negative_inc_fails ⟨"c", "h", [], [([], 5)]⟩ [] (-1) none (by decide)⟩

/-- Claim C9: calling Gauge set with a label-value array of the declared
length and no second argument succeeds and stores 0 for that key (the
omitted value defaults to 0 via `arg2 ?? 0`). -/
theorem gauge_set_missing_value_stores_zero (g : Gauge) (ls : List String)
    (hlen : ls.length = g.labels.length) :
    Gauge.set g (.labels ls) none = .ok { g with values := jset ls 0 g.values } ∧
    Gauge.get { g with values := jset ls 0 g.values } ls = .ok 0 := by
  constructor
  · simp [Gauge.set]
  · simp [Gauge.get, hlen, jgetD_jset_self]

theorem gauge_set_missing_value_stores_zero_witness :
    ((["a"] : List String).length = (["x"] : List String).length) ∧
    (Gauge.set ⟨"g", "h", ["x"], []⟩ (.labels ["a"]) none
        = .ok { Gauge.mk "g" "h" ["x"] [] with values := jset ["a"] 0 [] } ∧
      Gauge.get { Gauge.mk "g" "h" ["x"] [] with values := jset ["a"] 0 [] } ["a"] = .ok 0) :=
  ⟨rfl, gauge_set_missing_value_stores_zero ⟨"g", "h", ["x"], []⟩ ["a"] rfl⟩

/-- Claim C3 (amended): Counter inc and getValue, Gauge inc and dec, and
Histogram observe and get all fail with a LabelCountMismatch error
carrying the expected and actual counts before any state mutation when
the supplied label count differs from the declared one; Gauge get also
fails before mutation but its error carries no counts; Gauge set performs
no label-count check at all and succeeds, storing the value under the
mismatched key. -/
theorem label_mismatch_rejection (c : Counter) (g : Gauge) (hst : Histogram)
    (ls : List String) (a q v : ℚ)
    (hc : ls.length ≠ c.labels.length)
    (hg : ls.length ≠ g.labels.length)
    (hh : ls.length ≠ hst.labels.length) :
    Counter.inc c (some (.labels ls)) (some a)
        = .error (.labelCountMismatch c.labels.length ls.length) ∧
    Counter.getValue c ls = .error (.labelCountMismatch c.labels.length ls.length) ∧
    Gauge.inc g (some (.labels ls)) (some q)
        = .error (.labelCountMismatch g.labels.length ls.length) ∧
    Gauge.dec g (some (.labels ls)) (some q)
        = .error (.labelCountMismatch g.labels.length ls.length) ∧
    Gauge.get g ls = .error .labelCountMismatchBare ∧
    Gauge.set g (.labels ls) (some v) = .ok { g with values := jset ls v g.values } ∧
    Histogram.observe hst (.labels ls) (some v)
        = .error (.labelCountMismatch hst.labels.length ls.length) ∧
    Histogram.get hst ls = .error (.labelCountMismatch hst.labels.length ls.length) := by
  refine ⟨?_, ?_, ?_, ?_, ?_, ?_, ?_, ?_⟩
  · simp [Counter.inc, hc]
  · simp [Counter.getValue, hc]
  · simp [Gauge.inc, hg]
  · simp [Gauge.dec, hg]
  · simp [Gauge.get, hg]
  · simp [Gauge.set]
  · have : Histogram.observe hst (.labels ls) (some v) = Histogram.observeCore hst ls v := rfl
    rw [this]
    simp [Histogram.observeCore, hh]
  · simp [Histogram.get, hh]

theorem label_mismatch_rejection_witness :
    ((["x"] : List String).length ≠ (["a", "b"] : List String).length) ∧
    (Counter.inc ⟨"c", "h", ["a", "b"], []⟩ (some (.labels ["x"])) (some 1)
        = .error (.labelCountMismatch 2 1) ∧
      Counter.getValue ⟨"c", "h", ["a", "b"], []⟩ ["x"]
        = .error (.labelCountMismatch 2 1) ∧
      Gauge.inc ⟨"g", "h", ["a", "b"], []⟩ (some (.labels ["x"])) (some 2)
        = .error (.labelCountMismatch 2 1) ∧
      Gauge.dec ⟨"g", "h", ["a", "b"], []⟩ (some (.labels ["x"])) (some 2)
        = .error (.labelCountMismatch 2 1) ∧
      Gauge.get ⟨"g", "h", ["a", "b"], []⟩ ["x"] = .error .labelCountMismatchBare ∧
      Gauge.set ⟨"g", "h", ["a", "b"], []⟩ (.labels ["x"]) (some 5)
        = .ok { Gauge.mk "g" "h" ["a", "b"] [] with values := jset ["x"] 5 [] } ∧
      Histogram.observe ⟨"t", "h", [1], ["a", "b"], [], [], []⟩ (.labels ["x"]) (some 5)
        = .error (.labelCountMismatch 2 1) ∧
      Histogram.get ⟨"t", "h", [1], ["a", "b"], [], [], []⟩ ["x"]
        = .error (.labelCountMismatch 2 1)) :=
  ⟨by decide,
    label_mismatch_rejection ⟨"c", "h", ["a", "b"], []⟩ ⟨"g", "h", ["a", "b"], []⟩
      ⟨"t", "h", [1], ["a", "b"], [], [], []⟩ ["x"] 1 2 5
      (by decide) (by decide) (by decide)⟩

/-- Claim C3 counterexample: `Gauge.set` with a label-value array whose
length differs from the declared label count does NOT fail — it succeeds
and mutates the state under the mismatched key, contradicting the claim
that every listed metric operation rejects a mismatched label count
before any state mutation. -/
theorem label_mismatch_rejection_counterexample :
    ((["x"] : List String).length ≠ (["a", "b"] : List String).length) ∧
    Gauge.set ⟨"g", "h", ["a", "b"], []⟩ (.labels ["x"]) (some 5)
      = .ok ⟨"g", "h", ["a", "b"], [(["x"], 5)]⟩ := by
  constructor
  · decide
  · rfl

/-- Claim C7: Registry register fails with DuplicateName exactly when the
name is present (storing the metric on success); unregister never fails,
returning true and removing the entry when present and false otherwise;
unregistering then re-registering the same name succeeds.  The registry
hypothesis is the Map invariant that keys are unique (every reachable
registry satisfies it). -/
theorem registry_register_unregister (μ : Type) (r : Registry μ) (n : String) (m m₂ : μ)
    (hnd : (r.mets.map Prod.fst).Nodup) :
    ((jget n r.mets).isSome = true →
      Registry.register r n m = .error (.duplicateName n)) ∧
    ((jget n r.mets).isSome = false →
      Registry.register r n m = .ok ⟨jset n m r.mets⟩) ∧
    (Registry.register r n m).isOk = !(jget n r.mets).isSome ∧
    Registry.unregister r n = ((jget n r.mets).isSome, ⟨(jdelete n r.mets).2⟩) ∧
    Registry.register (Registry.unregister r n).2 n m₂
      = .ok ⟨jset n m₂ (jdelete n r.mets).2⟩ := by
  refine ⟨?_, ?_, ?_, ?_, ?_⟩
  · intro hp; simp [Registry.register, hp]
  · intro hp; simp [Registry.register, hp]
  · by_cases hp : (jget n r.mets).isSome <;>
      simp [Registry.register, hp, Except.isOk, Except.toBool]
  · simp [Registry.unregister, jdelete_fst]
  · have hnone : jget n (jdelete n r.mets).2 = none := jget_jdelete_self n r.mets hnd
    simp [Registry.unregister, Registry.register, hnone]

theorem registry_register_unregister_witness :
    ((([("a", 1), ("b", 2)] : List (String × ℕ)).map Prod.fst).Nodup) ∧
    (((jget "a" ([("a", 1), ("b", 2)] : List (String × ℕ))).isSome = true →
        Registry.register ⟨[("a", 1), ("b", 2)]⟩ "a" 7 = .error (.duplicateName "a")) ∧
      ((jget "a" ([("a", 1), ("b", 2)] : List (String × ℕ))).isSome = false →
        Registry.register ⟨[("a", 1), ("b", 2)]⟩ "a" 7
          = .ok ⟨jset "a" 7 [("a", 1), ("b", 2)]⟩) ∧
      (Registry.register ⟨[("a", 1), ("b", 2)]⟩ "a" 7).isOk
        = !(jget "a" ([("a", 1), ("b", 2)] : List (String × ℕ))).isSome ∧
      Registry.unregister ⟨[("a", 1), ("b", 2)]⟩ "a"
        = ((jget "a" ([("a", 1), ("b", 2)] : List (String × ℕ))).isSome,
            ⟨(jdelete "a" [("a", 1), ("b", 2)]).2⟩) ∧
      Registry.register (Registry.unregister ⟨[("a", 1), ("b", 2)]⟩ "a").2 "a" 9
        = .ok ⟨jset "a" 9 (jdelete "a" [("a", 1), ("b", 2)]).2⟩) :=
  ⟨by decide, registry_register_unregister ℕ ⟨[("a", 1), ("b", 2)]⟩ "a" 7 9 (by decide)⟩

/-! ### Inversion lemmas for the frame-effect claim -/

lemma counter_inc_inv (c c' : Counter) (ls : List String) (a : ℚ)
    (h : Counter.inc c (some (.labels ls)) (some a) = .ok c') :
    c' = { c with values := jset ls (jgetD ls c.values 0 + a) c.values } := by
  simp only [Counter.inc, Option.getD_some] at h
  split_ifs at h
  all_goals first
  | exact Except.noConfusion h
  | exact (Except.ok.inj h).symm

lemma gauge_inc_inv (g gi : Gauge) (ls : List String) (q : ℚ)
    (h : Gauge.inc g (some (.labels ls)) (some q) = .ok gi) :
    gi = { g with values := jset ls (jgetD ls g.values 0 + q) g.values } := by
  simp only [Gauge.inc, Option.getD_some] at h
  split_ifs at h
  all_goals first
  | exact Except.noConfusion h
  | exact (Except.ok.inj h).symm

lemma gauge_dec_inv (g gd : Gauge) (ls : List String) (q : ℚ)
    (h : Gauge.dec g (some (.labels ls)) (some q) = .ok gd) :
    gd = { g with values := jset ls (jgetD ls g.values 0 - q) g.values } := by
  simp only [Gauge.dec, Option.getD_some] at h
  split_ifs at h
  all_goals first
  | exact Except.noConfusion h
  | exact (Except.ok.inj h).symm

lemma gauge_set_inv (g gs : Gauge) (ls : List String) (v : ℚ)
    (h : Gauge.set g (.labels ls) (some v) = .ok gs) :
    gs = { g with values := jset ls v g.values } := by
  simp only [Gauge.set] at h
  exact (Except.ok.inj h).symm

lemma observe_frame (hst hst' : Histogram) (ls w : List String) (x : ℚ)
    (hw : w ≠ ls) (h : Histogram.observe hst (.labels ls) (some x) = .ok hst') :
    hst'.labels = hst.labels ∧
    jget w hst'.totalSum = jget w hst.totalSum ∧
    jget w hst'.totalCount = jget w hst.totalCount := by
  have h' : Histogram.observeCore hst ls x = .ok hst' := h
  simp only [Histogram.observeCore] at h'
  split_ifs at h'
  all_goals first
  | exact Except.noConfusion h'
  | (have hrec := (Except.ok.inj h').symm
     subst hrec
     exact ⟨rfl, by simp [jget_jset_ne _ _ _ _ hw], by simp [jget_jset_ne _ _ _ _ hw]⟩)

/-- Claim C10: every successful mutation with label-value sequence `ls`
(Counter inc, Gauge inc, dec or set, Histogram observe) changes only the
state of `ls`'s key: for every distinct label-value sequence `w`, the
read operations return identical results before and after. -/
theorem mutation_frame (c c' : Counter) (g gi gd gs : Gauge) (hst hst' : Histogram)
    (ls w : List String) (a q d v x : ℚ)
    (hw : w ≠ ls)
    (h1 : Counter.inc c (some (.labels ls)) (some a) = .ok c')
    (h2 : Gauge.inc g (some (.labels ls)) (some q) = .ok gi)
    (h3 : Gauge.dec g (some (.labels ls)) (some d) = .ok gd)
    (h4 : Gauge.set g (.labels ls) (some v) = .ok gs)
    (h5 : Histogram.observe hst (.labels ls) (some x) = .ok hst') :
    Counter.getValue c' w = Counter.getValue c w ∧
    Gauge.get gi w = Gauge.get g w ∧
    Gauge.get gd w = Gauge.get g w ∧
    Gauge.get gs w = Gauge.get g w ∧
    Histogram.get hst' w = Histogram.get hst w := by
  obtain ⟨hlab5, hsum5, hcnt5⟩ := observe_frame hst hst' ls w x hw h5
  refine ⟨?_, ?_, ?_, ?_, ?_⟩
  · rw [counter_inc_inv c c' ls a h1]
    simp [Counter.getValue, jgetD, jget_jset_ne _ _ _ _ hw]
  · rw [gauge_inc_inv g gi ls q h2]
    simp [Gauge.get, jgetD, jget_jset_ne _ _ _ _ hw]
  · rw [gauge_dec_inv g gd ls d h3]
    simp [Gauge.get, jgetD, jget_jset_ne _ _ _ _ hw]
  · rw [gauge_set_inv g gs ls v h4]
    simp [Gauge.get, jgetD, jget_jset_ne _ _ _ _ hw]
  · simp [Histogram.get, hlab5, jgetD, hsum5, hcnt5]

theorem mutation_frame_witness :
    ((["w"] : List String) ≠ ["u"]) ∧
    (Counter.inc ⟨"c", "h", ["l"], []⟩ (some (.labels ["u"])) (some 2)
        = .ok ⟨"c", "h", ["l"], [(["u"], 2)]⟩) ∧
    (Gauge.inc ⟨"g", "h", ["l"], []⟩ (some (.labels ["u"])) (some 3)
        = .ok ⟨"g", "h", ["l"], [(["u"], 3)]⟩) ∧
    (Gauge.dec ⟨"g", "h", ["l"], []⟩ (some (.labels ["u"])) (some 4)
        = .ok ⟨"g", "h", ["l"], [(["u"], -4)]⟩) ∧
    (Gauge.set ⟨"g", "h", ["l"], []⟩ (.labels ["u"]) (some 5)
        = .ok ⟨"g", "h", ["l"], [(["u"], 5)]⟩) ∧
    (Histogram.observe ⟨"t", "h", [1], ["l"], [], [], []⟩ (.labels ["u"]) (some 0)
        = .ok ⟨"t", "h", [1], ["l"], [(["u"], [(1, 1)])], [(["u"], 0)], [(["u"], 1)]⟩) ∧
    (Counter.getValue ⟨"c", "h", ["l"], [(["u"], 2)]⟩ ["w"]
        = Counter.getValue ⟨"c", "h", ["l"], []⟩ ["w"] ∧
      Gauge.get ⟨"g", "h", ["l"], [(["u"], 3)]⟩ ["w"]
        = Gauge.get ⟨"g", "h", ["l"], []⟩ ["w"] ∧
      Gauge.get ⟨"g", "h", ["l"], [(["u"], -4)]⟩ ["w"]
        = Gauge.get ⟨"g", "h", ["l"], []⟩ ["w"] ∧
      Gauge.get ⟨"g", "h", ["l"], [(["u"], 5)]⟩ ["w"]
        = Gauge.get ⟨"g", "h", ["l"], []⟩ ["w"] ∧
      Histogram.get ⟨"t", "h", [1], ["l"], [(["u"], [(1, 1)])], [(["u"], 0)], [(["u"], 1)]⟩ ["w"]
        = Histogram.get ⟨"t", "h", [1], ["l"], [], [], []⟩ ["w"]) :=
  by
  have hw : (["w"] : List String) ≠ ["u"] := by decide
  have h1 : Counter.inc ⟨"c", "h", ["l"], []⟩ (some (.labels ["u"])) (some 2)
      = .ok ⟨"c", "h", ["l"], [(["u"], 2)]⟩ := by
    norm_num [Counter.inc, jgetD, jget, jset]
  have h2 : Gauge.inc ⟨"g", "h", ["l"], []⟩ (some (.labels ["u"])) (some 3)
      = .ok ⟨"g", "h", ["l"], [(["u"], 3)]⟩ := by
    norm_num [Gauge.inc, jgetD, jget, jset]
  have h3 : Gauge.dec ⟨"g", "h", ["l"], []⟩ (some (.labels ["u"])) (some 4)
      = .ok ⟨"g", "h", ["l"], [(["u"], -4)]⟩ := by
    norm_num [Gauge.dec, jgetD, jget, jset]
  have h4 : Gauge.set ⟨"g", "h", ["l"], []⟩ (.labels ["u"]) (some 5)
      = .ok ⟨"g", "h", ["l"], [(["u"], 5)]⟩ := by
    norm_num [Gauge.set, jset]
  have h5 : Histogram.observe ⟨"t", "h", [1], ["l"], [], [], []⟩ (.labels ["u"]) (some 0)
      = .ok ⟨"t", "h", [1], ["l"], [(["u"], [(1, 1)])], [(["u"], 0)], [(["u"], 1)]⟩ := by
    norm_num [Histogram.observe, Histogram.observeCore, jgetD, jget, jset]
  exact ⟨hw, h1, h2, h3, h4, h5,
    mutation_frame _ _ _ _ _ _ _ _ _ _ _ _ _ _ _ hw h1 h2 h3 h4 h5⟩

/-- Claim C4 (amended): Counter renderText output is the HELP line with a
trailing space before its newline, the TYPE line, then per touched label
combination the line `N{label1="v1", label2="v2"} <value>` (no braces for
zero labels, where the line is `N <value>`); Gauge renderText output has
trailing spaces on both the HELP and TYPE lines and its data lines carry
a space between the metric name and the label block:
`N {label1="v1", label2="v2"} <value>` (`N <value>` for zero labels). -/
theorem render_exact_format (ns : ℚ → String) (c : Counter) (g : Gauge)
    (hc : ∀ p ∈ c.values, (p : List String × ℚ).1.length = c.labels.length)
    (hg : ∀ p ∈ g.values, (p : List String × ℚ).1.length = g.labels.length) :
    Counter.toPrometheus ns c
      = "# HELP " ++ c.name ++ " " ++ c.help ++ " \n"
        ++ "# TYPE " ++ c.name ++ " counter\n"
        ++ strJoin (c.values.map fun p =>
            c.name ++ specLabelBlock "\x7d" c.labels p.1 ++ " " ++ ns p.2 ++ "\n") ∧
    Gauge.toPrometheus ns g
      = "# HELP " ++ g.name ++ " " ++ g.help ++ " \n"
        ++ "# TYPE " ++ g.name ++ " gauge \n"
        ++ strJoin (g.values.map fun p =>
            g.name ++ " " ++ specLabelBlock "\x7d " g.labels p.1 ++ ns p.2 ++ "\n") := by
  constructor
  · have hmap : (c.values.map fun p =>
          c.name ++ cgLoop "\x7d" c.labels p.1 ++ " " ++ ns p.2 ++ "\n")
        = c.values.map fun p =>
          c.name ++ specLabelBlock "\x7d" c.labels p.1 ++ " " ++ ns p.2 ++ "\n" := by
      apply List.map_congr_left
      intro p hp
      rw [cgLoop_eq_spec _ _ _ (hc p hp).symm]
    rw [Counter.toPrometheus, hmap]
  · have hmap : (g.values.map fun p =>
          g.name ++ " " ++ cgLoop "\x7d " g.labels p.1 ++ ns p.2 ++ "\n")
        = g.values.map fun p =>
          g.name ++ " " ++ specLabelBlock "\x7d " g.labels p.1 ++ ns p.2 ++ "\n" := by
      apply List.map_congr_left
      intro p hp
      rw [cgLoop_eq_spec _ _ _ (hg p hp).symm]
    rw [Gauge.toPrometheus, hmap]

theorem render_exact_format_witness :
    (∀ p ∈ ([(["GET"], (4 : ℚ))] : List (List String × ℚ)),
      (p : List String × ℚ).1.length = (["method"] : List String).length) ∧
    (∀ p ∈ ([(["GET"], (5 : ℚ))] : List (List String × ℚ)),
      (p : List String × ℚ).1.length = (["method"] : List String).length) ∧
    (Counter.toPrometheus qRender ⟨"c", "h", ["method"], [(["GET"], 4)]⟩
        = "# HELP " ++ "c" ++ " " ++ "h" ++ " \n" ++ "# TYPE " ++ "c" ++ " counter\n"
          ++ strJoin (([(["GET"], (4 : ℚ))] : List (List String × ℚ)).map fun p =>
              "c" ++ specLabelBlock "\x7d" ["method"] p.1 ++ " " ++ qRender p.2 ++ "\n") ∧
      Gauge.toPrometheus qRender ⟨"g", "h", ["method"], [(["GET"], 5)]⟩
        = "# HELP " ++ "g" ++ " " ++ "h" ++ " \n" ++ "# TYPE " ++ "g" ++ " gauge \n"
          ++ strJoin (([(["GET"], (5 : ℚ))] : List (List String × ℚ)).map fun p =>
              "g" ++ " " ++ specLabelBlock "\x7d " ["method"] p.1 ++ qRender p.2 ++ "\n")) :=
  ⟨by decide, by decide,
    render_exact_format qRender ⟨"c", "h", ["method"], [(["GET"], 4)]⟩
      ⟨"g", "h", ["method"], [(["GET"], 5)]⟩ (by decide) (by decide)⟩

/-- Claim C4 counterexample: the Counter header is `"# HELP n h \n"` with
a trailing space before the newline, which differs from the exact byte
form `"# HELP n h\n"` the claim prescribes (and similarly the Gauge TYPE
line carries a trailing space and its labelled data lines a space before
the brace). -/
theorem render_exact_format_counterexample :
    Counter.toPrometheus qRender ⟨"n", "h", [], [([], 4)]⟩
        = "# HELP n h \n# TYPE n counter\nn 4\n" ∧
    "# HELP n h \n# TYPE n counter\nn 4\n" ≠ "# HELP n h\n# TYPE n counter\nn 4\n" ∧
    Gauge.toPrometheus qRender ⟨"m", "k", ["a"], [(["x"], 5)]⟩
        = "# HELP m k \n# TYPE m gauge \nm \x7ba=\x22x\x22\x7d 5\n" ∧
    "# HELP m k \n# TYPE m gauge \nm \x7ba=\x22x\x22\x7d 5\n"
      ≠ "# HELP m k\n# TYPE m gauge\nm\x7ba=\x22x\x22\x7d 5\n" := by
  refine ⟨by decide, by decide, by decide, by decide⟩

/-- Claim C8: a Histogram stores its bucket bounds sorted ascending at
construction regardless of the supplied order and without deduplication
(the stored list is a permutation of the input), renderText emits one
bucket line per stored bound in stored (ascending) order, and positions
holding equal (duplicate) bounds render identical lines, hence equal
cumulative counts. -/
theorem histogram_buckets_sorted_no_dedup (name help : String) (input : List ℚ)
    (L k : List String) (ns : ℚ → String) (bm : List (ℚ × ℕ)) (i j : ℕ)
    (hij : (Histogram.mkH name help input L).buckets.get? i
        = (Histogram.mkH name help input L).buckets.get? j) :
    List.Sorted (· ≤ ·) (Histogram.mkH name help input L).buckets ∧
    (Histogram.mkH name help input L).buckets.Perm input ∧
    (∀ h₂ : Histogram, Histogram.toPrometheus ns h₂
        = "# HELP " ++ h₂.name ++ " " ++ h₂.help ++ "\n"
          ++ "# TYPE " ++ h₂.name ++ " histogram\n"
          ++ strJoin (h₂.counts.map fun p =>
              strJoin (h₂.buckets.map (bucketLine ns h₂.name h₂.labels p.1 p.2))
                ++ Histogram.infLineFor h₂ p.1
                ++ Histogram.sumLineFor ns h₂ p.1
                ++ Histogram.countLineFor h₂ p.1)) ∧
    ((Histogram.mkH name help input L).buckets.map (bucketLine ns name L k bm)).get? i
      = ((Histogram.mkH name help input L).buckets.map (bucketLine ns name L k bm)).get? j := by
  refine ⟨mkH_buckets_sorted name help input L, mkH_buckets_perm name help input L,
    fun h₂ => rfl, ?_⟩
  rw [List.get?_map, List.get?_map, hij]

theorem histogram_buckets_sorted_no_dedup_witness :
    ((Histogram.mkH "h" "hh" [1, 1] []).buckets.get? 0
        = (Histogram.mkH "h" "hh" [1, 1] []).buckets.get? 1) ∧
    (List.Sorted (· ≤ ·) (Histogram.mkH "h" "hh" [1, 1] []).buckets ∧
      (Histogram.mkH "h" "hh" [1, 1] []).buckets.Perm [1, 1] ∧
      (∀ h₂ : Histogram, Histogram.toPrometheus qRender h₂
          = "# HELP " ++ h₂.name ++ " " ++ h₂.help ++ "\n"
            ++ "# TYPE " ++ h₂.name ++ " histogram\n"
            ++ strJoin (h₂.counts.map fun p =>
                strJoin (h₂.buckets.map (bucketLine qRender h₂.name h₂.labels p.1 p.2))
                  ++ Histogram.infLineFor h₂ p.1
                  ++ Histogram.sumLineFor qRender h₂ p.1
                  ++ Histogram.countLineFor h₂ p.1)) ∧
      ((Histogram.mkH "h" "hh" [1, 1] []).buckets.map
          (bucketLine qRender "h" [] [] [(1, 2)])).get? 0
        = ((Histogram.mkH "h" "hh" [1, 1] []).buckets.map
          (bucketLine qRender "h" [] [] [(1, 2)])).get? 1) :=
  ⟨by decide,
    histogram_buckets_sorted_no_dedup "h" "hh" [1, 1] [] [] qRender [(1, 2)] 0 1 (by decide)⟩

/-- Claim C1 (amended): for a Histogram whose declared bucket bounds are
pairwise distinct, after any sequence of successful observe calls for a
valid label combination, the stored count for each bucket bound `b`
equals the number of observed values `≤ b` (cumulative buckets: one
observation increments every bucket it falls under), `totalCount` equals
the number of observations, `totalSum` their arithmetic sum, and the
rendered `+Inf` bucket line carries `totalCount`.  (With duplicate
declared bounds, the single stored counter for the repeated bound value
is incremented once per duplicate occurrence, so the stored count is the
bound's multiplicity times the number of observations `≤ b` — see the
counterexample.) -/
theorem histogram_observe_cumulative (name help : String) (input : List ℚ)
    (L v : List String) (obs : List ℚ)
    (hvlen : v.length = L.length) (hnd : input.Nodup) :
    ∃ h', applyObserves v (Histogram.mkH name help input L) obs = .ok h' ∧
      (∀ b ∈ h'.buckets, Histogram.bucketAt h' v b
          = obs.countP fun y => decide (y ≤ b)) ∧
      Histogram.countAt h' v = obs.length ∧
      Histogram.sumAt h' v = obs.sum ∧
      Histogram.get h' v = .ok (obs.length, obs.sum) ∧
      Histogram.infLineFor h' v
        = name ++ "_bucket"
          ++ (if L.length > 0 then
                "\x7b" ++ strJoin ((L.zip v).map fun p =>
                    p.1 ++ "=\x22" ++ p.2 ++ "\x22, ") ++ "le=\x22+Inf\x22\x7d"
              else "\x7ble=\x22+Inf\x22\x7d")
          ++ " " ++ toString obs.length ++ "\n" := by
  have hv : v.length = (Histogram.mkH name help input L).labels.length := hvlen
  have hndb : (Histogram.mkH name help input L).buckets.Nodup :=
    ((mkH_buckets_perm name help input L).nodup_iff).mpr hnd
  have hcon : (jget v (Histogram.mkH name help input L).counts).isSome = false →
      jget v (Histogram.mkH name help input L).totalSum = none ∧
      jget v (Histogram.mkH name help input L).totalCount = none :=
    fun _ => ⟨rfl, rfl⟩
  obtain ⟨h', hrun, hnm, hhp, hlab, hbk, hbump, hsum, hcnt⟩ :=
    applyObserves_ok v obs (Histogram.mkH name help input L) hv hcon
  have hb0 : ∀ b : ℚ, Histogram.bucketAt (Histogram.mkH name help input L) v b = 0 :=
    fun b => rfl
  have hs0 : Histogram.sumAt (Histogram.mkH name help input L) v = 0 := rfl
  have hc0 : Histogram.countAt (Histogram.mkH name help input L) v = 0 := rfl
  have hcnt' : Histogram.countAt h' v = obs.length := by rw [hcnt, hc0]; omega
  have hsum' : Histogram.sumAt h' v = obs.sum := by rw [hsum, hs0]; ring
  refine ⟨h', hrun, ?_, hcnt', hsum', ?_, ?_⟩
  · intro b hb
    rw [hbk] at hb
    rw [hbump hndb b hb, hb0 b]
    omega
  · have hll : v.length = h'.labels.length := by rw [hlab]; exact hv
    have hget : Histogram.get h' v
        = .ok (Histogram.countAt h' v, Histogram.sumAt h' v) := by
      simp [Histogram.get, Histogram.countAt, Histogram.sumAt, hll]
    rw [hget, hcnt', hsum']
  · have hlabL : h'.labels = L := hlab
    have hpair : histPairs L v
        = strJoin ((L.zip v).map fun p => p.1 ++ "=\x22" ++ p.2 ++ "\x22, ") :=
      histPairs_eq_zip L v hvlen.symm
    have hcval : jgetD v h'.totalCount 0 = obs.length := hcnt'
    have hname : h'.name = name := hnm
    simp only [Histogram.infLineFor, hname, hlabL, hpair, hcval]

theorem histogram_observe_cumulative_witness :
    (([] : List String).length = ([] : List String).length) ∧
    ([(1 : ℚ), 2]).Nodup ∧
    (∃ h', applyObserves [] (Histogram.mkH "h" "hh" [1, 2] []) [(3 : ℚ)] = .ok h' ∧
      (∀ b ∈ h'.buckets, Histogram.bucketAt h' [] b
          = ([(3 : ℚ)]).countP fun y => decide (y ≤ b)) ∧
      Histogram.countAt h' [] = ([(3 : ℚ)]).length ∧
      Histogram.sumAt h' [] = ([(3 : ℚ)]).sum ∧
      Histogram.get h' [] = .ok (([(3 : ℚ)]).length, ([(3 : ℚ)]).sum) ∧
      Histogram.infLineFor h' []
        = "h" ++ "_bucket"
          ++ (if ([] : List String).length > 0 then
                "\x7b" ++ strJoin ((([] : List String).zip ([] : List String)).map fun p =>
                    p.1 ++ "=\x22" ++ p.2 ++ "\x22, ") ++ "le=\x22+Inf\x22\x7d"
              else "\x7ble=\x22+Inf\x22\x7d")
          ++ " " ++ toString ([(3 : ℚ)]).length ++ "\n") :=
  ⟨rfl, by decide, histogram_observe_cumulative "h" "hh" [1, 2] [] [] [3] rfl (by decide)⟩

/-- Claim C1 counterexample: with duplicate declared bounds `[1, 1]`, a
single observation of `0` leaves the stored count for bound `1` at `2`
(the observe loop bumps the single map entry once per duplicate), while
the number of observed values `≤ 1` is `1` — so the stored bucket count
does not equal the number of observed values `≤ b` as the claim states. -/
theorem histogram_duplicate_bound_counterexample :
    Histogram.observe (Histogram.mkH "h" "hh" [1, 1] []) (.num 0) none
        = .ok ⟨"h", "hh", [1, 1], [], [([], [(1, 2)])], [([], 0)], [([], 1)]⟩ ∧
    Histogram.bucketAt
        ⟨"h", "hh", [1, 1], [], [([], [(1, 2)])], [([], 0)], [([], 1)]⟩ [] 1 = 2 ∧
    List.countP (fun y => decide (y ≤ (1 : ℚ))) [(0 : ℚ)] = 1 := by
  refine ⟨?_, by decide, by decide⟩
  norm_num [Histogram.observe, Histogram.observeCore, Histogram.mkH, jgetD, jget, jset,
    List.insertionSort, List.orderedInsert]
